import Mathlib

/-!
A shallow embedding of the two command-line programs of this repository,
eos.py (single-dataset) and eos_addition.py (multi-dataset), together with
their Birch-Murnaghan and Vinet model functions over the reals.

Numeric spreadsheet cells are modelled as Option ℚ, where none stands for a
missing value (NaN).  The external fitting routine scipy.optimize.curve_fit
is modelled as an oracle parameter FitOracle.  Each program is a function
from its inputs and the oracle to the list of observable events it emits
(printed lines, fit invocations, plot saves) together with a final Outcome:
normal completion, a call to exit() after a reported error, or an uncaught
IndexError.
-/

/-! ## Model functions (real arithmetic) -/

/-- Model function birch_murnaghan of eos.py: the 3rd-order Birch-Murnaghan
equation of state, all three parameters free. -/
noncomputable def Eos.birch_murnaghan (V V0 K0 K0_prime : ℝ) : ℝ :=
  (3/2) * K0 * ((V0/V) ^ ((7:ℝ)/3) - (V0/V) ^ ((5:ℝ)/3)) *
    (1 + 3/4 * (K0_prime - 4) * ((V0/V) ^ ((2:ℝ)/3) - 1))

/-- Model function vinet of eos.py: the Vinet equation of state. -/
noncomputable def Eos.vinet (V V0 K0 K0_prime : ℝ) : ℝ :=
  let x := (V/V0) ^ ((1:ℝ)/3)
  let eta := 3/2 * (K0_prime - 1)
  3 * K0 * (1 - x) * Real.exp (eta * (1 - x))

/-- Model function birch_murnaghan of eos_addition.py: the body rebinds K0 to
the constant 160 before evaluating the closed form, so the K0 argument is
ignored. -/
noncomputable def EosAdd.birch_murnaghan (V V0 K0 K0_prime : ℝ) : ℝ :=
  let K0 : ℝ := 160
  (3/2) * K0 * ((V0/V) ^ ((7:ℝ)/3) - (V0/V) ^ ((5:ℝ)/3)) *
    (1 + 3/4 * (K0_prime - 4) * ((V0/V) ^ ((2:ℝ)/3) - 1))

/-- Model function vinet of eos_addition.py (identical to the one in eos.py). -/
noncomputable def EosAdd.vinet (V V0 K0 K0_prime : ℝ) : ℝ :=
  let x := (V/V0) ^ ((1:ℝ)/3)
  let eta := 3/2 * (K0_prime - 1)
  3 * K0 * (1 - x) * Real.exp (eta * (1 - x))

/-- The Birch-Murnaghan closed form exactly as the specification states it:
P(V) = (3/2)·K0·[(V0/V)^(7/3) − (V0/V)^(5/3)]·[1 + (3/4)(K0'−4)((V0/V)^(2/3) − 1)]. -/
noncomputable def specBirchMurnaghan (V V0 K0 K0_prime : ℝ) : ℝ :=
  (3/2) * K0 * ((V0/V) ^ ((7:ℝ)/3) - (V0/V) ^ ((5:ℝ)/3)) *
    (1 + (3/4) * (K0_prime - 4) * ((V0/V) ^ ((2:ℝ)/3) - 1))

/-- The Vinet closed form exactly as the specification states it:
x = (V/V0)^(1/3), η = (3/2)(K0'−1), P(V) = 3·K0·(1−x)·exp(η·(1−x)). -/
noncomputable def specVinet (V V0 K0 K0_prime : ℝ) : ℝ :=
  3 * K0 * (1 - (V/V0) ^ ((1:ℝ)/3)) *
    Real.exp ((3/2) * (K0_prime - 1) * (1 - (V/V0) ^ ((1:ℝ)/3)))

/-! ## Tables and missing-value interpolation -/

/-- A spreadsheet table: named columns of cells, a cell being none for NaN. -/
structure Table where
  cols : List (String × List (Option ℚ))
deriving DecidableEq

/-- The column names of a table. -/
def Table.colNames (t : Table) : List String := t.cols.map Prod.fst

/-- Whether a column of the given name exists. -/
def Table.hasCol (t : Table) (c : String) : Bool := t.cols.any fun x => x.1 == c

/-- The cells of the named column ([] if the column is absent). -/
def Table.col (t : Table) (c : String) : List (Option ℚ) :=
  match t.cols.find? (fun x => x.1 == c) with
  | some x => x.2
  | none => []

/-- The row count of a table (length of its first column). -/
def Table.nrows (t : Table) : Nat :=
  match t.cols with
  | [] => 0
  | c :: _ => c.2.length

/-- A table is rectangular when all columns have the row count. -/
def Table.Rect (t : Table) : Prop := ∀ x ∈ t.cols, x.2.length = t.nrows

/-- Restriction of a table to the columns named in cs (keeping file order),
as pandas read_excel with usecols does. -/
def Table.filterCols (t : Table) (cs : List String) : Table :=
  ⟨t.cols.filter fun x => cs.contains x.1⟩

/-- The last valid (non-missing) cell strictly before index i, with its index. -/
def lastSomeBefore (c : List (Option ℚ)) (i : Nat) : Option (Nat × ℚ) :=
  (List.range i).reverse.findSome? fun j =>
    match c.get? j with
    | some (some v) => some (j, v)
    | _ => none

/-- The first valid (non-missing) cell strictly after index i, with its index. -/
def nextSomeAfter (c : List (Option ℚ)) (i : Nat) : Option (Nat × ℚ) :=
  (List.range c.length).findSome? fun j =>
    if i < j then
      match c.get? j with
      | some (some v) => some (j, v)
      | _ => none
    else none

/-- One cell of pandas DataFrame.interpolate() with the default linear method
and forward direction: valid cells are kept; a missing cell with no earlier
valid cell stays missing; a missing cell after the last valid cell takes the
last valid value; a missing cell between valid cells is linearly interpolated
on the integer index. -/
def interpCell (c : List (Option ℚ)) (i : Nat) : Option ℚ :=
  match c.get? i with
  | some (some v) => some v
  | _ =>
    match lastSomeBefore c i with
    | none => none
    | some (p, a) =>
      match nextSomeAfter c i with
      | none => some a
      | some (n, b) => some (a + (b - a) * (((i : ℚ) - (p : ℚ)) / ((n : ℚ) - (p : ℚ))))

/-- pandas Series.interpolate() on one column. -/
def interpolateColumn (c : List (Option ℚ)) : List (Option ℚ) :=
  (List.range c.length).map (interpCell c)

/-- pandas DataFrame.interpolate(): every column interpolated independently. -/
def Table.interpolate (t : Table) : Table :=
  ⟨t.cols.map fun x => (x.1, interpolateColumn x.2)⟩

/-! ## Observable behaviour of the programs -/

/-- Which model function a fit call is for. -/
inductive ModelId
  | bm
  | vinet
deriving DecidableEq

/-- Observable events of a program run.  printParams models the line printing
the optimized parameters (its numeric content kept structurally); fitCall
records one invocation of scipy.optimize.curve_fit with the data, the initial
guess p0 = (V0 seed, K0 seed, K0_prime seed) and the maxfev argument (none for
the scipy default). -/
inductive Event
  | printLine (s : String)
  | printParams (m : ModelId) (V0 K0 K0p : ℚ)
  | readData (columns : List String)
  | fitCall (m : ModelId) (pcol vcol : String) (V P : List (Option ℚ))
      (p0 : Option ℚ × ℚ × ℚ) (maxfev : Option Nat)
  | savePlot (file : String)
deriving DecidableEq

/-- How a run ends: normal completion, exit() after a reported error, or an
uncaught IndexError. -/
inductive Outcome
  | finished
  | exited
  | indexError
deriving DecidableEq

/-- The external curve_fit routine, as an oracle: given the model, the V and P
arrays, the initial guess and the maxfev argument, it either fails with an
error message or returns optimized (V0, K0, K0_prime). -/
def FitOracle : Type :=
  ModelId → List (Option ℚ) → List (Option ℚ) → Option ℚ × ℚ × ℚ → Option Nat →
    Except String (ℚ × ℚ × ℚ)

/-- The maxfev budget eos_addition.py passes for each model: 5000 for the
Birch-Murnaghan call and the scipy default for the Vinet call. -/
def budgetOf : ModelId → Option Nat
  | .bm => some 5000
  | .vinet => none

/-! ### Message texts (the f-strings of the source, as concatenations) -/

/-- Printed by read_data when pandas raises. -/
def readErrMsg (e : String) : String := "Error reading file: " ++ e

/-- Printed by eos.py when the column-presence check fails. -/
def colErrMsg (p v : String) : String :=
  "Error: not all columns " ++ p ++ ", " ++ v ++ " exist in the data."

/-- Printed by eos_addition.py when the column-presence check fails. -/
def colErrMsgMulti (p v : String) : String :=
  "Error: not all columns " ++ p ++ ", " ++ v ++ " exist in the data."

/-- Printed by eos_addition.py when a pair still holds missing values. -/
def warnMsg (pc vc : String) : String :=
  "Warning: missing values in data for pressure column " ++ pc ++
    " and volume column " ++ vc ++ ". Skipping this data."

/-- Printed by eos.py when the Birch-Murnaghan fit raises. -/
def bmErr (e : String) : String := "Error in Birch-Murnaghan curve fitting: " ++ e

/-- Printed by eos.py when the Vinet fit raises. -/
def vinetErr (e : String) : String := "Error in Vinet curve fitting: " ++ e

/-- Printed by eos_addition.py when the Birch-Murnaghan fit raises. -/
def bmErrMulti (pc vc e : String) : String :=
  "Error in Birch-Murnaghan curve fitting for pressure column " ++ pc ++
    " and volume column " ++ vc ++ ": " ++ e

/-- Printed by eos_addition.py when the Vinet fit raises. -/
def vinetErrMulti (pc vc e : String) : String :=
  "Error in Vinet curve fitting for pressure column " ++ pc ++
    " and volume column " ++ vc ++ ": " ++ e

/-- The error message eos_addition.py prints when the fit of the given model
fails on the given column pair. -/
def fitErrMsgMulti (m : ModelId) (pc vc e : String) : String :=
  match m with
  | .bm => bmErrMulti pc vc e
  | .vinet => vinetErrMulti pc vc e

/-- Printed by eos_addition.py when the --pressures and --volumes lists have
different lengths. -/
def lenErrMsg : String :=
  "Error: Number of pressure columns and volume columns must be equal."

/-! ### The data loader -/

/-- Models pandas read_excel(filename, usecols=columns): the file argument is
the parsed table (none when the file cannot be read); pandas raises when a
requested column is absent, otherwise it returns the table restricted to the
requested columns, in file order, with the row count unchanged. -/
def read_excel (file : Option Table) (usecols : List String) : Except String Table :=
  match file with
  | none => .error "No such file or directory"
  | some t =>
    if usecols.all (fun c => t.hasCol c) then .ok (t.filterCols usecols)
    else .error "Usecols do not match columns"

/-- read_data of both programs: tries the spreadsheet read and on failure
prints the error; the caller then exits.  The event list records the read
attempt and any printed line. -/
def read_data (file : Option Table) (columns : List String) :
    List Event × Except Unit Table :=
  match read_excel file columns with
  | .ok t => ([.readData columns], .ok t)
  | .error e => ([.readData columns, .printLine (readErrMsg e)], .error ())

/-! ### eos.py main -/

/-- main of eos.py after argument parsing: read the two columns, check their
presence, build the initial guess [V[0], 1, 1] (an uncaught IndexError if V is
empty), fit Birch-Murnaghan then Vinet, report, and save the plot.  Each fit
failure is reported and the process exits. -/
def Eos.main (fit : FitOracle) (file : Option Table)
    (pressure_column volume_column output_file : String) : List Event × Outcome :=
  match read_data file [pressure_column, volume_column] with
  | (evs, .error _) => (evs, .exited)
  | (evs, .ok data) =>
    if data.hasCol pressure_column && data.hasCol volume_column then
      let P := data.col pressure_column
      match data.col volume_column with
      | [] => (evs, .indexError)
      | v0 :: tl =>
        let V := v0 :: tl
        let p0 : Option ℚ × ℚ × ℚ := (v0, 1, 1)
        let e1 := Event.fitCall .bm pressure_column volume_column V P p0 none
        match fit .bm V P p0 none with
        | .error e => (evs ++ [e1, .printLine (bmErr e)], .exited)
        | .ok (a, b, c) =>
          let e2 := Event.fitCall .vinet pressure_column volume_column V P p0 none
          match fit .vinet V P p0 none with
          | .error e =>
            (evs ++ [e1, .printParams .bm a b c, e2, .printLine (vinetErr e)], .exited)
          | .ok (a2, b2, c2) =>
            (evs ++ [e1, .printParams .bm a b c, e2, .printParams .vinet a2 b2 c2,
              .savePlot output_file], .finished)
    else
      (evs ++ [.printLine (colErrMsg pressure_column volume_column)], .exited)

/-! ### eos_addition.py main -/

/-- The per-pair loop of eos_addition.py main: for each (pressure, volume)
column pair, check presence, extract from the (already interpolated) table,
skip the pair with a warning if missing values remain, otherwise seed the
guess [V[0], 160, 5] (an uncaught IndexError if V is empty), fit
Birch-Murnaghan with maxfev = 5000 and Vinet with the default, reporting and
exiting on failure, and save the plot each iteration. -/
def EosAdd.loop (fit : FitOracle) (data : Table) (output_file : String) :
    List (String × String) → List Event × Outcome
  | [] => ([], .finished)
  | (pc, vc) :: rest =>
    if data.hasCol pc && data.hasCol vc then
      let P := data.col pc
      let V := data.col vc
      if P.any Option.isNone || V.any Option.isNone then
        let r := EosAdd.loop fit data output_file rest
        (.printLine (warnMsg pc vc) :: r.1, r.2)
      else
        match V with
        | [] => ([], .indexError)
        | v0 :: tl =>
          let p0 : Option ℚ × ℚ × ℚ := (v0, 160, 5)
          let e1 := Event.fitCall .bm pc vc (v0 :: tl) P p0 (some 5000)
          match fit .bm (v0 :: tl) P p0 (some 5000) with
          | .error e => ([e1, .printLine (bmErrMulti pc vc e)], .exited)
          | .ok (a, b, c) =>
            let e2 := Event.fitCall .vinet pc vc (v0 :: tl) P p0 none
            match fit .vinet (v0 :: tl) P p0 none with
            | .error e =>
              ([e1, .printParams .bm a b c, e2, .printLine (vinetErrMulti pc vc e)],
                .exited)
            | .ok (a2, b2, c2) =>
              let r := EosAdd.loop fit data output_file rest
              ([e1, .printParams .bm a b c, e2, .printParams .vinet a2 b2 c2,
                .savePlot output_file] ++ r.1, r.2)
    else
      ([.printLine (colErrMsgMulti pc vc)], .exited)

/-- main of eos_addition.py after argument parsing: check that the --pressures
and --volumes lists have equal length, read all requested columns, interpolate
the whole table, then run the per-pair loop. -/
def EosAdd.main (fit : FitOracle) (file : Option Table)
    (figure_title output_file : String) (pressures volumes colors : List String) :
    List Event × Outcome :=
  if pressures.length ≠ volumes.length then
    ([.printLine lenErrMsg], .exited)
  else
    match read_data file (pressures ++ volumes) with
    | (evs, .error _) => (evs, .exited)
    | (evs, .ok data0) =>
      let data := data0.interpolate
      let r := EosAdd.loop fit data output_file (pressures.zip volumes)
      (evs ++ r.1, r.2)

/-! ### Substring test (for checking reported context) -/

/-- Whether the first list is an initial segment of the second. -/
def chkLead : List Char → List Char → Bool
  | [], _ => true
  | _ :: _, [] => false
  | a :: as, b :: bs => a == b && chkLead as bs

/-- Whether the first list occurs as a contiguous segment of the second. -/
def hasSubList (needle : List Char) : List Char → Bool
  | [] => chkLead needle []
  | b :: bs => chkLead needle (b :: bs) || hasSubList needle bs

/-- Whether sub occurs as a contiguous substring of s. -/
def strHasSub (s sub : String) : Bool := hasSubList sub.data s.data

/-! ### Concrete instances used to exercise the programs -/

/-- An oracle on which every curve_fit call fails. -/
def failOracle : FitOracle := fun _ _ _ _ _ => .error "boom"

/-- An oracle on which every curve_fit call converges to (1, 2, 3). -/
def okOracle : FitOracle := fun _ _ _ _ _ => .ok (1, 2, 3)

/-- An oracle on which Birch-Murnaghan fits converge and Vinet fits fail. -/
def vinetFailOracle : FitOracle := fun m _ _ _ _ =>
  match m with
  | .bm => .ok (1, 2, 3)
  | .vinet => .error "boom"

/-- A table that lacks the volume column "Vcol". -/
def tNoV : Table := ⟨[("Pcol", [some 1])]⟩

/-- A clean four-column table holding two complete column pairs. -/
def tTwo : Table :=
  ⟨[("Pcol", [some 1, some 2]), ("P2", [some 3, some 4]),
    ("Vcol", [some 10, some 9]), ("V2", [some 8, some 7])]⟩

/-- An oracle that fails exactly on the volume data of the second pair of
tTwo and converges everywhere else. -/
def secondFailOracle : FitOracle := fun _ V _ _ _ =>
  if V = [some 8, some 7] then .error "boom" else .ok (1, 2, 3)

/-- A clean two-column table. -/
def tCols : Table := ⟨[("Pcol", [some 1, some 2]), ("Vcol", [some 10, some 9])]⟩

/-- A table whose volume column has a missing value. -/
def tNaN : Table := ⟨[("Pcol", [some 1, some 2]), ("Vcol", [some 10, none])]⟩

/-- A table with both columns present and zero rows. -/
def tEmpty : Table := ⟨[("Pcol", []), ("Vcol", [])]⟩

/-- A four-column table whose first pressure column has a leading missing
value (which linear forward interpolation cannot fill) and a clean second
pair. -/
def tLead : Table :=
  ⟨[("Pcol", [none, some 2]), ("P2", [some 1, some 2]),
    ("Vcol", [some 10, some 9]), ("V2", [some 8, some 7])]⟩

/-! ## Helper lemmas -/

theorem chkLead_self_append (x y : List Char) : chkLead x (x ++ y) = true := by
  induction x with
  | nil => rfl
  | cons a as ih => simp [chkLead, ih]

theorem hasSubList_of_chkLead (x l : List Char) (h : chkLead x l = true) :
    hasSubList x l = true := by
  cases l with
  | nil => simpa [hasSubList] using h
  | cons b bs => simp [hasSubList, h]

theorem hasSubList_append_left (a x l : List Char) (h : hasSubList x l = true) :
    hasSubList x (a ++ l) = true := by
  induction a with
  | nil => simpa using h
  | cons b bs ih => simp [hasSubList, ih]

theorem hasSubList_seg (a x b : List Char) : hasSubList x (a ++ (x ++ b)) = true :=
  hasSubList_append_left a x (x ++ b)
    (hasSubList_of_chkLead x (x ++ b) (chkLead_self_append x b))

theorem hasSubList_self (x : List Char) : hasSubList x x = true := by
  have := hasSubList_seg [] x []
  simpa using this

theorem strHasSub_bmErrMulti_pc (pc vc e : String) :
    strHasSub (bmErrMulti pc vc e) pc = true := by
  unfold strHasSub bmErrMulti
  simp only [String.data_append, List.append_assoc]
  exact hasSubList_seg _ _ _

theorem strHasSub_bmErrMulti_vc (pc vc e : String) :
    strHasSub (bmErrMulti pc vc e) vc = true := by
  unfold strHasSub bmErrMulti
  simp only [String.data_append, List.append_assoc]
  exact hasSubList_append_left _ _ _ (hasSubList_append_left _ _ _
    (hasSubList_append_left _ _ _ (hasSubList_seg [] _ _)))

theorem strHasSub_bmErrMulti_e (pc vc e : String) :
    strHasSub (bmErrMulti pc vc e) e = true := by
  unfold strHasSub bmErrMulti
  simp only [String.data_append, List.append_assoc]
  exact hasSubList_append_left _ _ _ (hasSubList_append_left _ _ _
    (hasSubList_append_left _ _ _ (hasSubList_append_left _ _ _
      (hasSubList_append_left _ _ _ (hasSubList_self e.data)))))

theorem strHasSub_vinetErrMulti_pc (pc vc e : String) :
    strHasSub (vinetErrMulti pc vc e) pc = true := by
  unfold strHasSub vinetErrMulti
  simp only [String.data_append, List.append_assoc]
  exact hasSubList_seg _ _ _

theorem strHasSub_vinetErrMulti_vc (pc vc e : String) :
    strHasSub (vinetErrMulti pc vc e) vc = true := by
  unfold strHasSub vinetErrMulti
  simp only [String.data_append, List.append_assoc]
  exact hasSubList_append_left _ _ _ (hasSubList_append_left _ _ _
    (hasSubList_append_left _ _ _ (hasSubList_seg [] _ _)))

theorem strHasSub_vinetErrMulti_e (pc vc e : String) :
    strHasSub (vinetErrMulti pc vc e) e = true := by
  unfold strHasSub vinetErrMulti
  simp only [String.data_append, List.append_assoc]
  exact hasSubList_append_left _ _ _ (hasSubList_append_left _ _ _
    (hasSubList_append_left _ _ _ (hasSubList_append_left _ _ _
      (hasSubList_append_left _ _ _ (hasSubList_self e.data)))))

theorem Table.hasCol_filterCols (t : Table) (cs : List String) (c : String) :
    (t.filterCols cs).hasCol c = (t.hasCol c && cs.contains c) := by
  rw [Bool.eq_iff_iff]
  simp only [Table.hasCol, Table.filterCols, List.any_eq_true, List.mem_filter,
    Bool.and_eq_true, beq_iff_eq]
  constructor
  · rintro ⟨x, ⟨hx1, hx2⟩, hx3⟩
    subst hx3
    exact ⟨⟨x, hx1, rfl⟩, hx2⟩
  · rintro ⟨⟨x, hx1, hx3⟩, hc⟩
    subst hx3
    exact ⟨x, ⟨hx1, hc⟩, rfl⟩

theorem Table.hasCol_interpolate (t : Table) (c : String) :
    t.interpolate.hasCol c = t.hasCol c := by
  obtain ⟨l⟩ := t
  induction l with
  | nil => rfl
  | cons x xs ih =>
    simp only [Table.hasCol, Table.interpolate, List.map_cons, List.any_cons] at *
    rw [ih]

theorem Table.col_interpolate (t : Table) (c : String) :
    t.interpolate.col c = interpolateColumn (t.col c) := by
  obtain ⟨l⟩ := t
  induction l with
  | nil => rfl
  | cons x xs ih =>
    simp only [Table.col, Table.interpolate, List.map_cons, List.find?_cons] at *
    by_cases hx : x.1 = c
    · have hbx : (x.1 == c) = true := beq_iff_eq.2 hx
      simp [hbx]
    · have hbx : (x.1 == c) = false := beq_eq_false_iff_ne.2 hx
      simp only [hbx] at *
      exact ih

theorem Table.nrows_filterCols (t : Table) (cs : List String) (hrect : t.Rect)
    (h : (t.filterCols cs).cols ≠ []) : (t.filterCols cs).nrows = t.nrows := by
  cases hc : (t.filterCols cs).cols with
  | nil => exact absurd hc h
  | cons x xs =>
    have hx : x ∈ (t.filterCols cs).cols := by rw [hc]; exact List.mem_cons_self x xs
    have hxt : x ∈ t.cols := List.mem_of_mem_filter hx
    have hlen := hrect x hxt
    simp only [Table.nrows, hc]
    exact hlen

theorem Table.filterCols_cols_ne_nil (t : Table) (cs : List String) (c : String)
    (hc : c ∈ cs) (h : t.hasCol c = true) : (t.filterCols cs).cols ≠ [] := by
  simp only [Table.hasCol, List.any_eq_true] at h
  obtain ⟨x, hx, hxc⟩ := h
  have hxeq : x.1 = c := beq_iff_eq.1 hxc
  have hmem : x ∈ (t.filterCols cs).cols := by
    apply List.mem_filter.2
    refine ⟨hx, ?_⟩
    rw [hxeq]
    exact List.elem_eq_true_of_mem hc
  intro hnil
  rw [hnil] at hmem
  exact absurd hmem (List.not_mem_nil x)

theorem Table.rect_filterCols (t : Table) (cs : List String) (hrect : t.Rect)
    (h : (t.filterCols cs).cols ≠ []) : (t.filterCols cs).Rect := by
  intro x hx
  have hxt : x ∈ t.cols := List.mem_of_mem_filter hx
  rw [Table.nrows_filterCols t cs hrect h]
  exact hrect x hxt

theorem Eos.main_readfail_eq (fit : FitOracle) (file : Option Table) (p v o e : String)
    (hre : read_excel file [p, v] = Except.error e) :
    Eos.main fit file p v o =
      ([.readData [p, v], .printLine (readErrMsg e)], .exited) := by
  simp [Eos.main, read_data, hre]

theorem Eos.main_colfail_eq (fit : FitOracle) (file : Option Table) (p v o : String)
    (data : Table) (hre : read_excel file [p, v] = Except.ok data)
    (hcol : (data.hasCol p && data.hasCol v) = false) :
    Eos.main fit file p v o =
      ([.readData [p, v], .printLine (colErrMsg p v)], .exited) := by
  simp [Eos.main, read_data, hre, hcol]

theorem Eos.main_empty_eq (fit : FitOracle) (file : Option Table) (p v o : String)
    (data : Table) (hre : read_excel file [p, v] = Except.ok data)
    (hcol : (data.hasCol p && data.hasCol v) = true) (hl : data.col v = []) :
    Eos.main fit file p v o = ([.readData [p, v]], .indexError) := by
  simp [Eos.main, read_data, hre, hcol, hl]

theorem Eos.main_bmfail_eq (fit : FitOracle) (file : Option Table) (p v o : String)
    (data : Table) (v0 : Option ℚ) (tl : List (Option ℚ)) (e : String)
    (hre : read_excel file [p, v] = Except.ok data)
    (hcol : (data.hasCol p && data.hasCol v) = true) (hl : data.col v = v0 :: tl)
    (hf : fit .bm (v0 :: tl) (data.col p) (v0, 1, 1) none = Except.error e) :
    Eos.main fit file p v o =
      ([.readData [p, v], .fitCall .bm p v (v0 :: tl) (data.col p) (v0, 1, 1) none,
        .printLine (bmErr e)], .exited) := by
  have hf' := hf
  simp only [Prod.mk_one_one] at hf'
  simp [Eos.main, read_data, hre, hcol, hl, hf']

theorem Eos.main_vinetfail_eq (fit : FitOracle) (file : Option Table) (p v o : String)
    (data : Table) (v0 : Option ℚ) (tl : List (Option ℚ)) (a b c : ℚ) (e : String)
    (hre : read_excel file [p, v] = Except.ok data)
    (hcol : (data.hasCol p && data.hasCol v) = true) (hl : data.col v = v0 :: tl)
    (hf1 : fit .bm (v0 :: tl) (data.col p) (v0, 1, 1) none = Except.ok (a, b, c))
    (hf2 : fit .vinet (v0 :: tl) (data.col p) (v0, 1, 1) none = Except.error e) :
    Eos.main fit file p v o =
      ([.readData [p, v], .fitCall .bm p v (v0 :: tl) (data.col p) (v0, 1, 1) none,
        .printParams .bm a b c,
        .fitCall .vinet p v (v0 :: tl) (data.col p) (v0, 1, 1) none,
        .printLine (vinetErr e)], .exited) := by
  have hf1' := hf1
  have hf2' := hf2
  simp only [Prod.mk_one_one] at hf1' hf2'
  simp [Eos.main, read_data, hre, hcol, hl, hf1', hf2']

theorem Eos.main_ok_eq (fit : FitOracle) (file : Option Table) (p v o : String)
    (data : Table) (v0 : Option ℚ) (tl : List (Option ℚ)) (a b c a2 b2 c2 : ℚ)
    (hre : read_excel file [p, v] = Except.ok data)
    (hcol : (data.hasCol p && data.hasCol v) = true) (hl : data.col v = v0 :: tl)
    (hf1 : fit .bm (v0 :: tl) (data.col p) (v0, 1, 1) none = Except.ok (a, b, c))
    (hf2 : fit .vinet (v0 :: tl) (data.col p) (v0, 1, 1) none = Except.ok (a2, b2, c2)) :
    Eos.main fit file p v o =
      ([.readData [p, v], .fitCall .bm p v (v0 :: tl) (data.col p) (v0, 1, 1) none,
        .printParams .bm a b c,
        .fitCall .vinet p v (v0 :: tl) (data.col p) (v0, 1, 1) none,
        .printParams .vinet a2 b2 c2, .savePlot o], .finished) := by
  have hf1' := hf1
  have hf2' := hf2
  simp only [Prod.mk_one_one] at hf1' hf2'
  simp [Eos.main, read_data, hre, hcol, hl, hf1', hf2']

theorem EosAdd.main_lenfail_eq (fit : FitOracle) (file : Option Table)
    (ft o : String) (ps vs cs : List String) (hlen : ps.length ≠ vs.length) :
    EosAdd.main fit file ft o ps vs cs = ([.printLine lenErrMsg], .exited) := by
  simp [EosAdd.main, hlen]

theorem EosAdd.main_eq_loop (fit : FitOracle) (file : Option Table)
    (ft o : String) (ps vs cs : List String) (data0 : Table)
    (hlen : ps.length = vs.length)
    (hre : read_excel file (ps ++ vs) = Except.ok data0) :
    EosAdd.main fit file ft o ps vs cs =
      (Event.readData (ps ++ vs) :: (EosAdd.loop fit data0.interpolate o (ps.zip vs)).1,
        (EosAdd.loop fit data0.interpolate o (ps.zip vs)).2) := by
  simp [EosAdd.main, read_data, hre, hlen]

theorem EosAdd.loop_skip_eq (fit : FitOracle) (data : Table) (o pc vc : String)
    (rest : List (String × String))
    (hcol : (data.hasCol pc && data.hasCol vc) = true)
    (hnan : ((data.col pc).any Option.isNone || (data.col vc).any Option.isNone) = true) :
    EosAdd.loop fit data o ((pc, vc) :: rest) =
      (Event.printLine (warnMsg pc vc) :: (EosAdd.loop fit data o rest).1,
        (EosAdd.loop fit data o rest).2) := by
  simp [EosAdd.loop, hcol, hnan]

theorem EosAdd.loop_bmfail_eq (fit : FitOracle) (data : Table) (o pc vc : String)
    (rest : List (String × String)) (v0 : Option ℚ) (tl : List (Option ℚ)) (e : String)
    (hcol : (data.hasCol pc && data.hasCol vc) = true)
    (hnan : ((data.col pc).any Option.isNone || (data.col vc).any Option.isNone) = false)
    (hl : data.col vc = v0 :: tl)
    (hf : fit .bm (v0 :: tl) (data.col pc) (v0, 160, 5) (some 5000) = Except.error e) :
    EosAdd.loop fit data o ((pc, vc) :: rest) =
      ([.fitCall .bm pc vc (v0 :: tl) (data.col pc) (v0, 160, 5) (some 5000),
        .printLine (bmErrMulti pc vc e)], .exited) := by
  have hnan' := hnan
  simp only [hl] at hnan'
  simp at hnan'
  simp [EosAdd.loop, hcol, hl, hf]
  exact ⟨fun hm => hnan'.1 none hm rfl, Option.ne_none_iff_isSome.2 hnan'.2.1,
    fun hm => hnan'.2.2 none hm rfl⟩

theorem EosAdd.loop_vinetfail_eq (fit : FitOracle) (data : Table) (o pc vc : String)
    (rest : List (String × String)) (v0 : Option ℚ) (tl : List (Option ℚ))
    (a b c : ℚ) (e : String)
    (hcol : (data.hasCol pc && data.hasCol vc) = true)
    (hnan : ((data.col pc).any Option.isNone || (data.col vc).any Option.isNone) = false)
    (hl : data.col vc = v0 :: tl)
    (hf1 : fit .bm (v0 :: tl) (data.col pc) (v0, 160, 5) (some 5000) = Except.ok (a, b, c))
    (hf2 : fit .vinet (v0 :: tl) (data.col pc) (v0, 160, 5) none = Except.error e) :
    EosAdd.loop fit data o ((pc, vc) :: rest) =
      ([.fitCall .bm pc vc (v0 :: tl) (data.col pc) (v0, 160, 5) (some 5000),
        .printParams .bm a b c,
        .fitCall .vinet pc vc (v0 :: tl) (data.col pc) (v0, 160, 5) none,
        .printLine (vinetErrMulti pc vc e)], .exited) := by
  have hnan' := hnan
  simp only [hl] at hnan'
  simp at hnan'
  simp [EosAdd.loop, hcol, hl, hf1, hf2]
  exact ⟨fun hm => hnan'.1 none hm rfl, Option.ne_none_iff_isSome.2 hnan'.2.1,
    fun hm => hnan'.2.2 none hm rfl⟩

theorem EosAdd.loop_empty_eq (fit : FitOracle) (data : Table) (o pc vc : String)
    (rest : List (String × String))
    (hcol : (data.hasCol pc && data.hasCol vc) = true)
    (hnan : ((data.col pc).any Option.isNone || (data.col vc).any Option.isNone) = false)
    (hl : data.col vc = []) :
    EosAdd.loop fit data o ((pc, vc) :: rest) = ([], .indexError) := by
  have hnan' := hnan
  simp at hnan'
  simp [EosAdd.loop, hcol, hl]
  exact fun hm => hnan'.1 none hm rfl

theorem Eos.single_main_fitCall_inv (fit : FitOracle) (file : Option Table)
    (p v o : String) (m : ModelId) (pc vc : String) (V P : List (Option ℚ))
    (p0 : Option ℚ × ℚ × ℚ) (mf : Option Nat)
    (he : Event.fitCall m pc vc V P p0 mf ∈ (Eos.main fit file p v o).1) :
    mf = none ∧ pc = p ∧ vc = v ∧
      (∃ v0 tl, V = v0 :: tl ∧ p0 = (v0, 1, 1)) ∧
      ∃ data, read_excel file [p, v] = Except.ok data ∧ V = data.col v ∧ P = data.col p := by
  cases hre : read_excel file [p, v] with
  | error e => simp [Eos.main, read_data, hre] at he
  | ok data =>
    by_cases hcol : (data.hasCol p && data.hasCol v) = true
    · cases hl : data.col v with
      | nil => simp [Eos.main, read_data, hre, hcol, hl] at he
      | cons v0 tl =>
        simp only [Eos.main, read_data, hre, hcol, hl] at he
        cases hf1 : fit ModelId.bm (v0 :: tl) (data.col p) (v0, 1, 1) none with
        | error e1 =>
          simp only [Prod.mk_one_one] at hf1
          simp [hf1] at he
          obtain ⟨h1, h2, h3, h4, h5, h6, h7⟩ := he
          subst h2
          subst h3
          subst h4
          subst h5
          subst h6
          exact ⟨h7, rfl, rfl, ⟨v0, tl, rfl, by simp⟩, data, rfl, hl.symm, rfl⟩
        | ok abc =>
          obtain ⟨a, b, c⟩ := abc
          simp only [Prod.mk_one_one] at hf1
          cases hf2 : fit ModelId.vinet (v0 :: tl) (data.col p) (v0, 1, 1) none with
          | error e2 =>
            simp only [Prod.mk_one_one] at hf2
            simp [hf1, hf2] at he
            rcases he with ⟨h1, h2, h3, h4, h5, h6, h7⟩ | ⟨h1, h2, h3, h4, h5, h6, h7⟩ <;>
            · subst h2
              subst h3
              subst h4
              subst h5
              subst h6
              exact ⟨h7, rfl, rfl, ⟨v0, tl, rfl, by simp⟩, data, rfl, hl.symm, rfl⟩
          | ok abc2 =>
            obtain ⟨a2, b2, c2⟩ := abc2
            simp only [Prod.mk_one_one] at hf2
            simp [hf1, hf2] at he
            rcases he with ⟨h1, h2, h3, h4, h5, h6, h7⟩ | ⟨h1, h2, h3, h4, h5, h6, h7⟩ <;>
            · subst h2
              subst h3
              subst h4
              subst h5
              subst h6
              exact ⟨h7, rfl, rfl, ⟨v0, tl, rfl, by simp⟩, data, rfl, hl.symm, rfl⟩
    · simp [Eos.main, read_data, hre, hcol] at he

theorem EosAdd.loop_colfail_eq (fit : FitOracle) (data : Table) (o pc vc : String)
    (rest : List (String × String))
    (hcol : (data.hasCol pc && data.hasCol vc) = false) :
    EosAdd.loop fit data o ((pc, vc) :: rest) =
      ([.printLine (colErrMsgMulti pc vc)], .exited) := by
  simp [EosAdd.loop, hcol]

theorem EosAdd.loop_ok_eq (fit : FitOracle) (data : Table) (o pc vc : String)
    (rest : List (String × String)) (v0 : Option ℚ) (tl : List (Option ℚ))
    (a b c a2 b2 c2 : ℚ)
    (hcol : (data.hasCol pc && data.hasCol vc) = true)
    (hnan : ((data.col pc).any Option.isNone || (data.col vc).any Option.isNone) = false)
    (hl : data.col vc = v0 :: tl)
    (hf1 : fit .bm (v0 :: tl) (data.col pc) (v0, 160, 5) (some 5000) = Except.ok (a, b, c))
    (hf2 : fit .vinet (v0 :: tl) (data.col pc) (v0, 160, 5) none = Except.ok (a2, b2, c2)) :
    EosAdd.loop fit data o ((pc, vc) :: rest) =
      ([.fitCall .bm pc vc (v0 :: tl) (data.col pc) (v0, 160, 5) (some 5000),
        .printParams .bm a b c,
        .fitCall .vinet pc vc (v0 :: tl) (data.col pc) (v0, 160, 5) none,
        .printParams .vinet a2 b2 c2, .savePlot o] ++ (EosAdd.loop fit data o rest).1,
        (EosAdd.loop fit data o rest).2) := by
  have hnan' := hnan
  simp only [hl] at hnan'
  simp at hnan'
  simp [EosAdd.loop, hcol, hl, hf1, hf2]
  exact ⟨fun hm => hnan'.1 none hm rfl, Option.ne_none_iff_isSome.2 hnan'.2.1,
    fun hm => hnan'.2.2 none hm rfl⟩

theorem EosAdd.loop_fitCall_inv (fit : FitOracle) (data : Table) (o : String)
    (pairs : List (String × String)) (m : ModelId) (pc vc : String)
    (V P : List (Option ℚ)) (p0 : Option ℚ × ℚ × ℚ) (mf : Option Nat)
    (he : Event.fitCall m pc vc V P p0 mf ∈ (EosAdd.loop fit data o pairs).1) :
    (pc, vc) ∈ pairs ∧ V = data.col vc ∧ P = data.col pc ∧
      ((data.col pc).any Option.isNone || (data.col vc).any Option.isNone) = false ∧
      (∃ v0 tl, V = v0 :: tl ∧ p0 = (v0, 160, 5)) ∧ mf = budgetOf m := by
  induction pairs with
  | nil => simp [EosAdd.loop] at he
  | cons pr rest ih =>
    obtain ⟨pc', vc'⟩ := pr
    by_cases hcol : (data.hasCol pc' && data.hasCol vc') = true
    · by_cases hnan : ((data.col pc').any Option.isNone || (data.col vc').any Option.isNone) = true
      · rw [EosAdd.loop_skip_eq fit data o pc' vc' rest hcol hnan] at he
        simp only [List.mem_cons] at he
        rcases he with hbad | he2
        · exact absurd hbad (by simp)
        · obtain ⟨hmem, hrest⟩ := ih he2
          exact ⟨List.mem_cons_of_mem _ hmem, hrest⟩
      · rw [Bool.not_eq_true] at hnan
        cases hl : data.col vc' with
        | nil =>
          rw [EosAdd.loop_empty_eq fit data o pc' vc' rest hcol hnan hl] at he
          simp at he
        | cons v0 tl =>
          cases hf1 : fit ModelId.bm (v0 :: tl) (data.col pc') (v0, 160, 5) (some 5000) with
          | error e1 =>
            rw [EosAdd.loop_bmfail_eq fit data o pc' vc' rest v0 tl e1 hcol hnan hl hf1] at he
            simp at he
            obtain ⟨h1, h2, h3, h4, h5, h6, h7⟩ := he
            subst h2
            subst h3
            subst h4
            subst h5
            subst h6
            subst h1
            exact ⟨List.mem_cons_self _ _, hl.symm, rfl, hnan, ⟨v0, tl, rfl, rfl⟩, h7⟩
          | ok abc =>
            obtain ⟨a, b, c⟩ := abc
            cases hf2 : fit ModelId.vinet (v0 :: tl) (data.col pc') (v0, 160, 5) none with
            | error e2 =>
              rw [EosAdd.loop_vinetfail_eq fit data o pc' vc' rest v0 tl a b c e2
                hcol hnan hl hf1 hf2] at he
              simp at he
              rcases he with ⟨h1, h2, h3, h4, h5, h6, h7⟩ | ⟨h1, h2, h3, h4, h5, h6, h7⟩ <;>
              · subst h2
                subst h3
                subst h4
                subst h5
                subst h6
                subst h1
                exact ⟨List.mem_cons_self _ _, hl.symm, rfl, hnan, ⟨v0, tl, rfl, rfl⟩, h7⟩
            | ok abc2 =>
              obtain ⟨a2, b2, c2⟩ := abc2
              rw [EosAdd.loop_ok_eq fit data o pc' vc' rest v0 tl a b c a2 b2 c2
                hcol hnan hl hf1 hf2] at he
              simp at he
              rcases he with ⟨h1, h2, h3, h4, h5, h6, h7⟩ | ⟨h1, h2, h3, h4, h5, h6, h7⟩ | he2
              · subst h2
                subst h3
                subst h4
                subst h5
                subst h6
                subst h1
                exact ⟨List.mem_cons_self _ _, hl.symm, rfl, hnan, ⟨v0, tl, rfl, rfl⟩, h7⟩
              · subst h2
                subst h3
                subst h4
                subst h5
                subst h6
                subst h1
                exact ⟨List.mem_cons_self _ _, hl.symm, rfl, hnan, ⟨v0, tl, rfl, rfl⟩, h7⟩
              · obtain ⟨hmem, hrest⟩ := ih he2
                exact ⟨List.mem_cons_of_mem _ hmem, hrest⟩
    · rw [Bool.not_eq_true] at hcol
      rw [EosAdd.loop_colfail_eq fit data o pc' vc' rest hcol] at he
      simp at he

theorem EosAdd.multi_main_fitCall_inv (fit : FitOracle) (file : Option Table)
    (ft o : String) (ps vs cs : List String) (m : ModelId) (pc vc : String)
    (V P : List (Option ℚ)) (p0 : Option ℚ × ℚ × ℚ) (mf : Option Nat)
    (he : Event.fitCall m pc vc V P p0 mf ∈ (EosAdd.main fit file ft o ps vs cs).1) :
    ∃ data0, read_excel file (ps ++ vs) = Except.ok data0 ∧
      (pc, vc) ∈ ps.zip vs ∧
      V = data0.interpolate.col vc ∧ P = data0.interpolate.col pc ∧
      ((data0.interpolate.col pc).any Option.isNone ||
        (data0.interpolate.col vc).any Option.isNone) = false ∧
      (∃ v0 tl, V = v0 :: tl ∧ p0 = (v0, 160, 5)) ∧ mf = budgetOf m := by
  by_cases hlen : ps.length = vs.length
  · cases hre : read_excel file (ps ++ vs) with
    | error e =>
      rw [EosAdd.main] at he
      simp only [hlen, ne_eq, not_true_eq_false, if_false] at he
      simp [read_data, hre] at he
    | ok data0 =>
      rw [EosAdd.main_eq_loop fit file ft o ps vs cs data0 hlen hre] at he
      simp only [List.mem_cons] at he
      rcases he with hbad | he2
      · exact absurd hbad (by simp)
      · exact ⟨data0, rfl, EosAdd.loop_fitCall_inv fit data0.interpolate o (ps.zip vs)
          m pc vc V P p0 mf he2⟩
  · rw [EosAdd.main_lenfail_eq fit file ft o ps vs cs hlen] at he
    simp at he

theorem EosAdd.loop_nofit_of_nan (fit : FitOracle) (data : Table) (o : String)
    (pairs : List (String × String)) (pc vc : String)
    (hnan : ((data.col pc).any Option.isNone || (data.col vc).any Option.isNone) = true) :
    ∀ m V P p0 mf, Event.fitCall m pc vc V P p0 mf ∉ (EosAdd.loop fit data o pairs).1 := by
  intro m V P p0 mf he
  obtain ⟨_, _, _, hclean, _, _⟩ := EosAdd.loop_fitCall_inv fit data o pairs m pc vc V P p0 mf he
  rw [hclean] at hnan
  exact Bool.false_ne_true hnan

theorem EosAdd.loop_fitfail_ends (fit : FitOracle) (data : Table) (o : String)
    (pairs : List (String × String)) (m : ModelId) (pc vc : String)
    (V P : List (Option ℚ)) (p0 : Option ℚ × ℚ × ℚ) (mf : Option Nat) (e : String)
    (he : Event.fitCall m pc vc V P p0 mf ∈ (EosAdd.loop fit data o pairs).1)
    (herr : fit m V P p0 mf = Except.error e) :
    ∃ pre, (EosAdd.loop fit data o pairs).1 =
        pre ++ [Event.fitCall m pc vc V P p0 mf,
          Event.printLine (fitErrMsgMulti m pc vc e)] ∧
      (EosAdd.loop fit data o pairs).2 = .exited := by
  induction pairs with
  | nil => simp [EosAdd.loop] at he
  | cons pr rest ih =>
    obtain ⟨pc', vc'⟩ := pr
    by_cases hcol : (data.hasCol pc' && data.hasCol vc') = true
    · by_cases hnan : ((data.col pc').any Option.isNone || (data.col vc').any Option.isNone) = true
      · rw [EosAdd.loop_skip_eq fit data o pc' vc' rest hcol hnan] at he ⊢
        simp only [List.mem_cons] at he
        rcases he with hbad | he2
        · exact absurd hbad (by simp)
        · obtain ⟨pre, hpre, hout⟩ := ih he2
          exact ⟨Event.printLine (warnMsg pc' vc') :: pre, by simp [hpre], hout⟩
      · rw [Bool.not_eq_true] at hnan
        cases hl : data.col vc' with
        | nil =>
          rw [EosAdd.loop_empty_eq fit data o pc' vc' rest hcol hnan hl] at he
          simp at he
        | cons v0 tl =>
          cases hf1 : fit ModelId.bm (v0 :: tl) (data.col pc') (v0, 160, 5) (some 5000) with
          | error e1 =>
            rw [EosAdd.loop_bmfail_eq fit data o pc' vc' rest v0 tl e1 hcol hnan hl hf1]
              at he ⊢
            simp at he
            obtain ⟨h1, h2, h3, h4, h5, h6, h7⟩ := he
            subst h2
            subst h3
            subst h4
            subst h5
            subst h6
            subst h7
            subst h1
            rw [hf1] at herr
            injection herr with hee
            subst hee
            exact ⟨[], rfl, rfl⟩
          | ok abc =>
            obtain ⟨a, b, c⟩ := abc
            cases hf2 : fit ModelId.vinet (v0 :: tl) (data.col pc') (v0, 160, 5) none with
            | error e2 =>
              rw [EosAdd.loop_vinetfail_eq fit data o pc' vc' rest v0 tl a b c e2
                hcol hnan hl hf1 hf2] at he ⊢
              simp at he
              rcases he with ⟨h1, h2, h3, h4, h5, h6, h7⟩ | ⟨h1, h2, h3, h4, h5, h6, h7⟩
              · subst h2
                subst h3
                subst h4
                subst h5
                subst h6
                subst h7
                subst h1
                rw [hf1] at herr
                exact absurd herr (by simp)
              · subst h2
                subst h3
                subst h4
                subst h5
                subst h6
                subst h7
                subst h1
                rw [hf2] at herr
                injection herr with hee
                subst hee
                exact ⟨[_, _], rfl, rfl⟩
            | ok abc2 =>
              obtain ⟨a2, b2, c2⟩ := abc2
              rw [EosAdd.loop_ok_eq fit data o pc' vc' rest v0 tl a b c a2 b2 c2
                hcol hnan hl hf1 hf2] at he ⊢
              simp at he
              rcases he with ⟨h1, h2, h3, h4, h5, h6, h7⟩ | ⟨h1, h2, h3, h4, h5, h6, h7⟩ | he2
              · subst h2
                subst h3
                subst h4
                subst h5
                subst h6
                subst h7
                subst h1
                rw [hf1] at herr
                exact absurd herr (by simp)
              · subst h2
                subst h3
                subst h4
                subst h5
                subst h6
                subst h7
                subst h1
                rw [hf2] at herr
                exact absurd herr (by simp)
              · obtain ⟨pre, hpre, hout⟩ := ih he2
                refine ⟨[Event.fitCall .bm pc' vc' (v0 :: tl) (data.col pc') (v0, 160, 5)
                    (some 5000), Event.printParams .bm a b c,
                    Event.fitCall .vinet pc' vc' (v0 :: tl) (data.col pc') (v0, 160, 5) none,
                    Event.printParams .vinet a2 b2 c2, Event.savePlot o] ++ pre,
                  ?_, hout⟩
                rw [hpre, List.append_assoc]
    · rw [Bool.not_eq_true] at hcol
      rw [EosAdd.loop_colfail_eq fit data o pc' vc' rest hcol] at he
      simp at he

/-! ## Claims -/

/-- C1: In the multi-dataset variant, birch_murnaghan pins K0 to the fixed
constant 160 inside the function body: for every V, V0, K0_prime and for every
pair of K0 arguments, the function returns the same value, namely the
3rd-order Birch-Murnaghan closed form evaluated with K0 = 160. -/
theorem C1_bm_pins_K0 (V V0 K0a K0b K0_prime : ℝ) :
    EosAdd.birch_murnaghan V V0 K0a K0_prime = EosAdd.birch_murnaghan V V0 K0b K0_prime ∧
    EosAdd.birch_murnaghan V V0 K0a K0_prime = Eos.birch_murnaghan V V0 160 K0_prime :=
  ⟨rfl, rfl⟩

/-- C3: For every V0 > 0 and all K0, K0_prime, evaluating each model function
at the reference volume yields zero pressure: birch_murnaghan(V0, V0, K0, K0')
= 0 and vinet(V0, V0, K0, K0') = 0. -/
theorem C3_zero_at_reference (V0 K0 K0_prime : ℝ) (h : 0 < V0) :
    Eos.birch_murnaghan V0 V0 K0 K0_prime = 0 ∧ Eos.vinet V0 V0 K0 K0_prime = 0 ∧
    EosAdd.birch_murnaghan V0 V0 K0 K0_prime = 0 ∧ EosAdd.vinet V0 V0 K0 K0_prime = 0 := by
  have hV : V0 / V0 = 1 := div_self (ne_of_gt h)
  refine ⟨?_, ?_, ?_, ?_⟩
  · simp [Eos.birch_murnaghan, hV, Real.one_rpow]
  · simp [Eos.vinet, hV, Real.one_rpow]
  · simp [EosAdd.birch_murnaghan, hV, Real.one_rpow]
  · simp [EosAdd.vinet, hV, Real.one_rpow]

/-- Witness for C3 at the concrete reference volume V0 = 1. -/
theorem C3_zero_at_reference_witness :
    (0:ℝ) < 1 ∧ Eos.birch_murnaghan 1 1 2 3 = 0 ∧ Eos.vinet 1 1 2 3 = 0 ∧
    EosAdd.birch_murnaghan 1 1 2 3 = 0 ∧ EosAdd.vinet 1 1 2 3 = 0 :=
  ⟨one_pos, C3_zero_at_reference 1 2 3 one_pos⟩

/-- C4: For every V > 0, V0 > 0 and all K0, K0_prime, the single-dataset
variant's model functions return exactly the closed forms the spec states,
using the parameters passed in. -/
theorem C4_closed_forms (V V0 K0 K0_prime : ℝ) (hV : 0 < V) (hV0 : 0 < V0) :
    Eos.birch_murnaghan V V0 K0 K0_prime = specBirchMurnaghan V V0 K0 K0_prime ∧
    Eos.vinet V V0 K0 K0_prime = specVinet V V0 K0 K0_prime :=
  ⟨rfl, rfl⟩

/-- Witness for C4 at V = 2, V0 = 1, K0 = 3, K0_prime = 4. -/
theorem C4_closed_forms_witness :
    (0:ℝ) < 2 ∧ (0:ℝ) < 1 ∧
    Eos.birch_murnaghan 2 1 3 4 = specBirchMurnaghan 2 1 3 4 ∧
    Eos.vinet 2 1 3 4 = specVinet 2 1 3 4 :=
  ⟨two_pos, one_pos, C4_closed_forms 2 1 3 4 two_pos one_pos⟩

/-- C7: In the multi-dataset variant, if the --pressures and --volumes lists
have different lengths, the program reports an error and terminates without
reading data or performing any fitting. -/
theorem C7_mismatched_lengths (fit : FitOracle) (file : Option Table)
    (ft o : String) (ps vs cs : List String) (hlen : ps.length ≠ vs.length) :
    EosAdd.main fit file ft o ps vs cs = ([.printLine lenErrMsg], .exited) ∧
    (∀ cols, Event.readData cols ∉ (EosAdd.main fit file ft o ps vs cs).1) ∧
    (∀ m pc vc V P p0 mf,
      Event.fitCall m pc vc V P p0 mf ∉ (EosAdd.main fit file ft o ps vs cs).1) := by
  refine ⟨EosAdd.main_lenfail_eq fit file ft o ps vs cs hlen, ?_, ?_⟩
  · intro cols hmem
    rw [EosAdd.main_lenfail_eq fit file ft o ps vs cs hlen] at hmem
    simp at hmem
  · intro m pc vc V P p0 mf hmem
    rw [EosAdd.main_lenfail_eq fit file ft o ps vs cs hlen] at hmem
    simp at hmem

/-- Witness for C7 with one pressure column and no volume column. -/
theorem C7_mismatched_lengths_witness :
    (["Pcol"] : List String).length ≠ ([] : List String).length ∧
    EosAdd.main okOracle (some tCols) "t" "out" ["Pcol"] [] [] =
      ([.printLine lenErrMsg], .exited) :=
  ⟨by decide, (C7_mismatched_lengths okOracle (some tCols) "t" "out" ["Pcol"] [] []
    (by decide)).1⟩

/-- C10: If a loaded dataset has zero rows, both variants raise an uncaught
IndexError when seeding the initial guess from the first observed volume
(indexing V[0]), so the process dies outside the report-error-and-exit policy
and no fit is attempted. -/
theorem C10_empty_dataset_indexError :
    (∀ (fit : FitOracle) (file : Option Table) (p v o : String) (data : Table),
      read_excel file [p, v] = Except.ok data →
      (data.hasCol p && data.hasCol v) = true →
      data.col v = [] →
      (Eos.main fit file p v o).2 = .indexError ∧
      ∀ m pc vc V P p0 mf,
        Event.fitCall m pc vc V P p0 mf ∉ (Eos.main fit file p v o).1) ∧
    (∀ (fit : FitOracle) (file : Option Table) (ft o : String)
      (ps vs cs : List String) (pc vc : String) (rest : List (String × String))
      (data0 : Table),
      ps.length = vs.length →
      ps.zip vs = (pc, vc) :: rest →
      read_excel file (ps ++ vs) = Except.ok data0 →
      (data0.interpolate.hasCol pc && data0.interpolate.hasCol vc) = true →
      data0.interpolate.col pc = [] →
      data0.interpolate.col vc = [] →
      (EosAdd.main fit file ft o ps vs cs).2 = .indexError ∧
      ∀ m pc' vc' V P p0 mf,
        Event.fitCall m pc' vc' V P p0 mf ∉ (EosAdd.main fit file ft o ps vs cs).1) := by
  constructor
  · intro fit file p v o data hre hcol hl
    rw [Eos.main_empty_eq fit file p v o data hre hcol hl]
    constructor
    · rfl
    · intro m pc vc V P p0 mf hmem
      simp at hmem
  · intro fit file ft o ps vs cs pc vc rest data0 hlen hzip hre hcol hp hv
    have hnan : ((data0.interpolate.col pc).any Option.isNone ||
        (data0.interpolate.col vc).any Option.isNone) = false := by
      rw [hp, hv]
      rfl
    have hloop := EosAdd.loop_empty_eq fit data0.interpolate o pc vc rest hcol hnan hv
    rw [EosAdd.main_eq_loop fit file ft o ps vs cs data0 hlen hre, hzip, hloop]
    constructor
    · rfl
    · intro m pc' vc' V P p0 mf hmem
      simp at hmem

/-- Witness for C10 on a two-column table with zero rows, for both variants. -/
theorem C10_empty_dataset_indexError_witness :
    read_excel (some tEmpty) ["Pcol", "Vcol"] = Except.ok tEmpty ∧
    (tEmpty.hasCol "Pcol" && tEmpty.hasCol "Vcol") = true ∧
    tEmpty.col "Vcol" = [] ∧
    (Eos.main okOracle (some tEmpty) "Pcol" "Vcol" "out").2 = .indexError ∧
    (EosAdd.main okOracle (some tEmpty) "t" "out" ["Pcol"] ["Vcol"] []).2 = .indexError := by
  refine ⟨by rfl, by decide, by decide, ?_, ?_⟩
  · exact (C10_empty_dataset_indexError.1 okOracle (some tEmpty) "Pcol" "Vcol" "out"
      tEmpty (by rfl) (by decide) (by decide)).1
  · exact (C10_empty_dataset_indexError.2 okOracle (some tEmpty) "t" "out"
      ["Pcol"] ["Vcol"] [] "Pcol" "Vcol" [] tEmpty (by decide) (by decide) (by rfl)
      (by decide) (by decide) (by decide)).1

/-- C8 counterexample: within one multi-dataset run, the Birch-Murnaghan call
passes maxfev = 5000 while the Vinet call of the same variant is made with the
scipy default budget, so the variant that raises the budget does not do so for
all of its fitting calls. -/
theorem C8_counterexample :
    Event.fitCall .bm "Pcol" "Vcol" [some 10, some 9] [some 1, some 2]
        (some 10, 160, 5) (some 5000)
      ∈ (EosAdd.main okOracle (some tCols) "t" "out" ["Pcol"] ["Vcol"] []).1 ∧
    Event.fitCall .vinet "Pcol" "Vcol" [some 10, some 9] [some 1, some 2]
        (some 10, 160, 5) none
      ∈ (EosAdd.main okOracle (some tCols) "t" "out" ["Pcol"] ["Vcol"] []).1 := by
  decide

/-- C8 amended: the multi-dataset variant raises the maximum-iteration budget
to 5000 exactly for its Birch-Murnaghan fitting calls and uses the optimizer's
default for its Vinet calls; the single-dataset variant uses the default for
all of its fitting calls. -/
theorem C8_amended_budgets :
    (∀ (fit : FitOracle) (file : Option Table) (p v o : String)
      (m : ModelId) (pc vc : String) (V P : List (Option ℚ))
      (p0 : Option ℚ × ℚ × ℚ) (mf : Option Nat),
      Event.fitCall m pc vc V P p0 mf ∈ (Eos.main fit file p v o).1 → mf = none) ∧
    (∀ (fit : FitOracle) (file : Option Table) (ft o : String)
      (ps vs cs : List String) (m : ModelId) (pc vc : String)
      (V P : List (Option ℚ)) (p0 : Option ℚ × ℚ × ℚ) (mf : Option Nat),
      Event.fitCall m pc vc V P p0 mf ∈ (EosAdd.main fit file ft o ps vs cs).1 →
      mf = budgetOf m) := by
  constructor
  · intro fit file p v o m pc vc V P p0 mf he
    exact (Eos.single_main_fitCall_inv fit file p v o m pc vc V P p0 mf he).1
  · intro fit file ft o ps vs cs m pc vc V P p0 mf he
    obtain ⟨d, -, -, -, -, -, -, hmf⟩ :=
      EosAdd.multi_main_fitCall_inv fit file ft o ps vs cs m pc vc V P p0 mf he
    exact hmf

/-- Witness for C8 amended on concrete runs of both variants. -/
theorem C8_amended_budgets_witness :
    (Event.fitCall .vinet "Pcol" "Vcol" [some 10, some 9] [some 1, some 2]
        (some 10, 1, 1) none
      ∈ (Eos.main okOracle (some tCols) "Pcol" "Vcol" "out").1) ∧
    (none : Option Nat) = none ∧
    (Event.fitCall .bm "Pcol" "Vcol" [some 10, some 9] [some 1, some 2]
        (some 10, 160, 5) (some 5000)
      ∈ (EosAdd.main okOracle (some tCols) "t" "out" ["Pcol"] ["Vcol"] []).1) ∧
    (some 5000 : Option Nat) = budgetOf .bm :=
  ⟨by decide,
   C8_amended_budgets.1 okOracle (some tCols) "Pcol" "Vcol" "out" .vinet "Pcol" "Vcol"
     [some 10, some 9] [some 1, some 2] (some 10, 1, 1) none (by decide),
   by decide,
   C8_amended_budgets.2 okOracle (some tCols) "t" "out" ["Pcol"] ["Vcol"] [] .bm
     "Pcol" "Vcol" [some 10, some 9] [some 1, some 2] (some 10, 160, 5) (some 5000)
     (by decide)⟩

/-- C9: For every non-empty dataset, the initial parameter guess passed to the
fitting engine seeds V0 from the first observed volume, with K0 and K0_prime
seeded at (1, 1) in the single-dataset variant and at (160, 5) in the
multi-dataset variant. -/
theorem C9_initial_guess :
    (∀ (fit : FitOracle) (file : Option Table) (p v o : String)
      (m : ModelId) (pc vc : String) (V P : List (Option ℚ))
      (p0 : Option ℚ × ℚ × ℚ) (mf : Option Nat),
      Event.fitCall m pc vc V P p0 mf ∈ (Eos.main fit file p v o).1 →
      ∃ v0 tl, V = v0 :: tl ∧ p0 = (v0, 1, 1)) ∧
    (∀ (fit : FitOracle) (file : Option Table) (ft o : String)
      (ps vs cs : List String) (m : ModelId) (pc vc : String)
      (V P : List (Option ℚ)) (p0 : Option ℚ × ℚ × ℚ) (mf : Option Nat),
      Event.fitCall m pc vc V P p0 mf ∈ (EosAdd.main fit file ft o ps vs cs).1 →
      ∃ v0 tl, V = v0 :: tl ∧ p0 = (v0, 160, 5)) := by
  constructor
  · intro fit file p v o m pc vc V P p0 mf he
    exact (Eos.single_main_fitCall_inv fit file p v o m pc vc V P p0 mf he).2.2.2.1
  · intro fit file ft o ps vs cs m pc vc V P p0 mf he
    obtain ⟨d, -, -, -, -, -, hseed, -⟩ :=
      EosAdd.multi_main_fitCall_inv fit file ft o ps vs cs m pc vc V P p0 mf he
    exact hseed

/-- Witness for C9 on concrete runs of both variants. -/
theorem C9_initial_guess_witness :
    (Event.fitCall .bm "Pcol" "Vcol" [some 10, some 9] [some 1, some 2]
        (some 10, 1, 1) none
      ∈ (Eos.main okOracle (some tCols) "Pcol" "Vcol" "out").1) ∧
    (∃ v0 tl, [some (10:ℚ), some 9] = v0 :: tl ∧
      ((some 10, 1, 1) : Option ℚ × ℚ × ℚ) = (v0, 1, 1)) ∧
    (Event.fitCall .bm "Pcol" "Vcol" [some 10, some 9] [some 1, some 2]
        (some 10, 160, 5) (some 5000)
      ∈ (EosAdd.main okOracle (some tCols) "t" "out" ["Pcol"] ["Vcol"] []).1) ∧
    (∃ v0 tl, [some (10:ℚ), some 9] = v0 :: tl ∧
      ((some 10, 160, 5) : Option ℚ × ℚ × ℚ) = (v0, 160, 5)) :=
  ⟨by decide,
   C9_initial_guess.1 okOracle (some tCols) "Pcol" "Vcol" "out" .bm "Pcol" "Vcol"
     [some 10, some 9] [some 1, some 2] (some 10, 1, 1) none (by decide),
   by decide,
   C9_initial_guess.2 okOracle (some tCols) "t" "out" ["Pcol"] ["Vcol"] [] .bm
     "Pcol" "Vcol" [some 10, some 9] [some 1, some 2] (some 10, 160, 5) (some 5000)
     (by decide)⟩

/-- C2 counterexample: the variant that performs no interpolation is the
single-dataset one, and on a column pair containing a missing value it does
not warn or skip: it attempts the fit on the raw data and emits no warning
line, refuting the claim that the non-interpolating variant warns and attempts
no fit for such a pair. -/
theorem C2_counterexample :
    (List.any (tNaN.col "Vcol") Option.isNone) = true ∧
    (Eos.main okOracle (some tNaN) "Pcol" "Vcol" "out").1 =
      [Event.readData ["Pcol", "Vcol"],
       Event.fitCall .bm "Pcol" "Vcol" [some 10, none] [some 1, some 2]
         (some 10, 1, 1) none,
       Event.printParams .bm 1 2 3,
       Event.fitCall .vinet "Pcol" "Vcol" [some 10, none] [some 1, some 2]
         (some 10, 1, 1) none,
       Event.printParams .vinet 1 2 3, Event.savePlot "out"] ∧
    Event.printLine (warnMsg "Pcol" "Vcol")
      ∉ (Eos.main okOracle (some tNaN) "Pcol" "Vcol" "out").1 := by
  decide

/-- C2 amended: the multi-dataset variant both interpolates and skips: it
linearly interpolates the full table before per-column extraction (every fit
it makes receives columns of the interpolated table, and only pairs free of
missing values are fitted), and a pair still containing a missing value after
interpolation is skipped with a warning, no fit attempted for it, processing
continuing with the remaining pairs; the single-dataset variant performs no
interpolation and no missing-value skip: its fit receives the raw loaded
columns and is attempted even when they contain missing values. -/
theorem C2_amended_missing_values :
    (∀ (fit : FitOracle) (file : Option Table) (ft o : String)
      (ps vs cs : List String) (m : ModelId) (pc vc : String)
      (V P : List (Option ℚ)) (p0 : Option ℚ × ℚ × ℚ) (mf : Option Nat),
      Event.fitCall m pc vc V P p0 mf ∈ (EosAdd.main fit file ft o ps vs cs).1 →
      ∃ data0, read_excel file (ps ++ vs) = Except.ok data0 ∧
        V = data0.interpolate.col vc ∧ P = data0.interpolate.col pc ∧
        ((data0.interpolate.col pc).any Option.isNone ||
          (data0.interpolate.col vc).any Option.isNone) = false) ∧
    (∀ (fit : FitOracle) (data : Table) (o pc vc : String)
      (rest : List (String × String)),
      (data.hasCol pc && data.hasCol vc) = true →
      ((data.col pc).any Option.isNone || (data.col vc).any Option.isNone) = true →
      EosAdd.loop fit data o ((pc, vc) :: rest) =
        (Event.printLine (warnMsg pc vc) :: (EosAdd.loop fit data o rest).1,
          (EosAdd.loop fit data o rest).2) ∧
      ∀ (m : ModelId) (V P : List (Option ℚ)) (p0 : Option ℚ × ℚ × ℚ)
        (mf : Option Nat),
        Event.fitCall m pc vc V P p0 mf ∉ (EosAdd.loop fit data o ((pc, vc) :: rest)).1) ∧
    (∀ (fit : FitOracle) (file : Option Table) (p v o : String) (data : Table)
      (v0 : Option ℚ) (tl : List (Option ℚ)),
      read_excel file [p, v] = Except.ok data →
      (data.hasCol p && data.hasCol v) = true →
      data.col v = v0 :: tl →
      ((data.col p).any Option.isNone || (data.col v).any Option.isNone) = true →
      Event.fitCall .bm p v (v0 :: tl) (data.col p) (v0, 1, 1) none
        ∈ (Eos.main fit file p v o).1 ∧
      Event.printLine (warnMsg p v) ∉ (Eos.main fit file p v o).1) := by
  refine ⟨?_, ?_, ?_⟩
  · intro fit file ft o ps vs cs m pc vc V P p0 mf he
    obtain ⟨d, hre, -, hV, hP, hclean, -, -⟩ :=
      EosAdd.multi_main_fitCall_inv fit file ft o ps vs cs m pc vc V P p0 mf he
    exact ⟨d, hre, hV, hP, hclean⟩
  · intro fit data o pc vc rest hcol hnan
    refine ⟨EosAdd.loop_skip_eq fit data o pc vc rest hcol hnan, ?_⟩
    intro m V P p0 mf
    exact EosAdd.loop_nofit_of_nan fit data o ((pc, vc) :: rest) pc vc hnan m V P p0 mf
  · intro fit file p v o data v0 tl hre hcol hl hnan
    cases hf1 : fit ModelId.bm (v0 :: tl) (data.col p) (v0, 1, 1) none with
    | error e1 =>
      rw [Eos.main_bmfail_eq fit file p v o data v0 tl e1 hre hcol hl hf1]
      constructor
      · simp
      · intro hmem
        simp [warnMsg, readErrMsg, bmErr] at hmem
        have := congrArg (fun s => s.data.head?) hmem
        simp [String.data_append] at this
    | ok abc =>
      obtain ⟨a, b, c⟩ := abc
      cases hf2 : fit ModelId.vinet (v0 :: tl) (data.col p) (v0, 1, 1) none with
      | error e2 =>
        rw [Eos.main_vinetfail_eq fit file p v o data v0 tl a b c e2 hre hcol hl hf1 hf2]
        constructor
        · simp
        · intro hmem
          simp [warnMsg, readErrMsg, vinetErr] at hmem
          have := congrArg (fun s => s.data.head?) hmem
          simp [String.data_append] at this
      | ok abc2 =>
        obtain ⟨a2, b2, c2⟩ := abc2
        rw [Eos.main_ok_eq fit file p v o data v0 tl a b c a2 b2 c2 hre hcol hl hf1 hf2]
        constructor
        · simp
        · intro hmem
          simp at hmem

/-- Witness for C2 amended: a multi-dataset run where the first pair keeps a
missing value after interpolation (warned and skipped, second pair fitted) and
a single-dataset run fitting a pair that contains a missing value. -/
theorem C2_amended_missing_values_witness :
    (Event.fitCall .bm "P2" "V2" [some 8, some 7] [some 1, some 2] (some 8, 160, 5)
        (some 5000)
      ∈ (EosAdd.main okOracle (some tLead) "t" "out" ["Pcol", "P2"] ["Vcol", "V2"] []).1) ∧
    (∃ data0, read_excel (some tLead) (["Pcol", "P2"] ++ ["Vcol", "V2"]) = Except.ok data0 ∧
      [some (8:ℚ), some 7] = data0.interpolate.col "V2" ∧
      [some (1:ℚ), some 2] = data0.interpolate.col "P2" ∧
      ((data0.interpolate.col "P2").any Option.isNone ||
        (data0.interpolate.col "V2").any Option.isNone) = false) ∧
    ((tLead.interpolate.hasCol "Pcol" && tLead.interpolate.hasCol "Vcol") = true) ∧
    (((tLead.interpolate.col "Pcol").any Option.isNone ||
      (tLead.interpolate.col "Vcol").any Option.isNone) = true) ∧
    (EosAdd.loop okOracle tLead.interpolate "out" [("Pcol", "Vcol"), ("P2", "V2")] =
      (Event.printLine (warnMsg "Pcol" "Vcol") ::
        (EosAdd.loop okOracle tLead.interpolate "out" [("P2", "V2")]).1,
        (EosAdd.loop okOracle tLead.interpolate "out" [("P2", "V2")]).2)) ∧
    ((tNaN.col "Pcol").any Option.isNone || (tNaN.col "Vcol").any Option.isNone) = true ∧
    (Event.fitCall .bm "Pcol" "Vcol" [some 10, none] [some 1, some 2] (some 10, 1, 1) none
      ∈ (Eos.main okOracle (some tNaN) "Pcol" "Vcol" "out").1) := by
  refine ⟨by decide, ?_, by decide, by decide, ?_, by decide, ?_⟩
  · exact C2_amended_missing_values.1 okOracle (some tLead) "t" "out" ["Pcol", "P2"]
      ["Vcol", "V2"] [] .bm "P2" "V2" [some 8, some 7] [some 1, some 2]
      (some 8, 160, 5) (some 5000) (by decide)
  · exact (C2_amended_missing_values.2.1 okOracle tLead.interpolate "out" "Pcol" "Vcol"
      [("P2", "V2")] (by decide) (by decide)).1
  · exact (C2_amended_missing_values.2.2 okOracle (some tNaN) "Pcol" "Vcol" "out"
      (tNaN.filterCols ["Pcol", "Vcol"]) (some 10) [none] (by rfl) (by decide) (by decide)
      (by decide)).1

/-- C5 counterexample: in a single-dataset run whose Birch-Murnaghan fit
fails, the program prints only an error line that contains neither the
pressure-column nor the volume-column name, so not every variant reports the
failure with context identifying the columns being fitted. -/
theorem C5_counterexample :
    Eos.main failOracle (some tCols) "Pcol" "Vcol" "out" =
      ([Event.readData ["Pcol", "Vcol"],
        Event.fitCall .bm "Pcol" "Vcol" [some 10, some 9] [some 1, some 2]
          (some 10, 1, 1) none,
        Event.printLine "Error in Birch-Murnaghan curve fitting: boom"], .exited) ∧
    strHasSub "Error in Birch-Murnaghan curve fitting: boom" "Pcol" = false ∧
    strHasSub "Error in Birch-Murnaghan curve fitting: boom" "Vcol" = false := by
  decide

/-- C5 amended: in both variants, when a fitting call fails the failure is
reported and the run terminates immediately after the report, with no retry
and no parameter output for the failing call; the multi-dataset variant's
report identifies the pressure and volume columns (and the error) for
whichever pair was being fitted, while the single-dataset variant's report
identifies only which model's fit failed. -/
theorem C5_amended_fit_failure :
    (∀ (fit : FitOracle) (file : Option Table) (p v o : String) (data : Table)
      (v0 : Option ℚ) (tl : List (Option ℚ)) (e : String),
      read_excel file [p, v] = Except.ok data →
      (data.hasCol p && data.hasCol v) = true →
      data.col v = v0 :: tl →
      fit .bm (v0 :: tl) (data.col p) (v0, 1, 1) none = Except.error e →
      Eos.main fit file p v o =
        ([.readData [p, v],
          .fitCall .bm p v (v0 :: tl) (data.col p) (v0, 1, 1) none,
          .printLine (bmErr e)], .exited)) ∧
    (∀ (fit : FitOracle) (file : Option Table) (p v o : String) (data : Table)
      (v0 : Option ℚ) (tl : List (Option ℚ)) (a b c : ℚ) (e : String),
      read_excel file [p, v] = Except.ok data →
      (data.hasCol p && data.hasCol v) = true →
      data.col v = v0 :: tl →
      fit .bm (v0 :: tl) (data.col p) (v0, 1, 1) none = Except.ok (a, b, c) →
      fit .vinet (v0 :: tl) (data.col p) (v0, 1, 1) none = Except.error e →
      Eos.main fit file p v o =
        ([.readData [p, v],
          .fitCall .bm p v (v0 :: tl) (data.col p) (v0, 1, 1) none,
          .printParams .bm a b c,
          .fitCall .vinet p v (v0 :: tl) (data.col p) (v0, 1, 1) none,
          .printLine (vinetErr e)], .exited)) ∧
    (∀ (fit : FitOracle) (file : Option Table) (ft o : String)
      (ps vs cs : List String) (m : ModelId) (pc vc : String)
      (V P : List (Option ℚ)) (p0 : Option ℚ × ℚ × ℚ) (mf : Option Nat) (e : String),
      Event.fitCall m pc vc V P p0 mf ∈ (EosAdd.main fit file ft o ps vs cs).1 →
      fit m V P p0 mf = Except.error e →
      (∃ pre, (EosAdd.main fit file ft o ps vs cs).1 =
          pre ++ [Event.fitCall m pc vc V P p0 mf,
            Event.printLine (fitErrMsgMulti m pc vc e)] ∧
        (EosAdd.main fit file ft o ps vs cs).2 = .exited) ∧
      strHasSub (fitErrMsgMulti m pc vc e) pc = true ∧
      strHasSub (fitErrMsgMulti m pc vc e) vc = true ∧
      strHasSub (fitErrMsgMulti m pc vc e) e = true) := by
  refine ⟨?_, ?_, ?_⟩
  · intro fit file p v o data v0 tl e hre hcol hl hf
    exact Eos.main_bmfail_eq fit file p v o data v0 tl e hre hcol hl hf
  · intro fit file p v o data v0 tl a b c e hre hcol hl hf1 hf2
    exact Eos.main_vinetfail_eq fit file p v o data v0 tl a b c e hre hcol hl hf1 hf2
  · intro fit file ft o ps vs cs m pc vc V P p0 mf e he herr
    have hsub : strHasSub (fitErrMsgMulti m pc vc e) pc = true ∧
        strHasSub (fitErrMsgMulti m pc vc e) vc = true ∧
        strHasSub (fitErrMsgMulti m pc vc e) e = true := by
      cases m with
      | bm =>
        exact ⟨strHasSub_bmErrMulti_pc pc vc e, strHasSub_bmErrMulti_vc pc vc e,
          strHasSub_bmErrMulti_e pc vc e⟩
      | vinet =>
        exact ⟨strHasSub_vinetErrMulti_pc pc vc e, strHasSub_vinetErrMulti_vc pc vc e,
          strHasSub_vinetErrMulti_e pc vc e⟩
    refine ⟨?_, hsub.1, hsub.2.1, hsub.2.2⟩
    by_cases hlen : ps.length = vs.length
    · cases hre : read_excel file (ps ++ vs) with
      | error e0 =>
        rw [EosAdd.main] at he
        simp only [hlen, ne_eq, not_true_eq_false, if_false] at he
        simp [read_data, hre] at he
      | ok data0 =>
        rw [EosAdd.main_eq_loop fit file ft o ps vs cs data0 hlen hre] at he ⊢
        simp only [List.mem_cons] at he
        rcases he with hbad | he2
        · exact absurd hbad (by simp)
        · obtain ⟨pre, hpre, hout⟩ := EosAdd.loop_fitfail_ends fit data0.interpolate o
            (ps.zip vs) m pc vc V P p0 mf e he2 herr
          exact ⟨Event.readData (ps ++ vs) :: pre, by simp [hpre], hout⟩
    · rw [EosAdd.main_lenfail_eq fit file ft o ps vs cs hlen] at he
      simp at he

/-- Witness for C5 amended: concrete failing runs of both variants and both
models, including a two-pair multi-dataset run whose first pair fits
successfully and whose second pair's Birch-Murnaghan fit fails. -/
theorem C5_amended_fit_failure_witness :
    failOracle .bm [some 10, some 9] [some 1, some 2] (some 10, 1, 1) none =
      Except.error "boom" ∧
    Eos.main failOracle (some tCols) "Pcol" "Vcol" "out" =
      ([.readData ["Pcol", "Vcol"],
        .fitCall .bm "Pcol" "Vcol" [some 10, some 9] [some 1, some 2]
          (some 10, 1, 1) none,
        .printLine (bmErr "boom")], .exited) ∧
    vinetFailOracle .vinet [some 10, some 9] [some 1, some 2] (some 10, 1, 1) none =
      Except.error "boom" ∧
    Eos.main vinetFailOracle (some tCols) "Pcol" "Vcol" "out" =
      ([.readData ["Pcol", "Vcol"],
        .fitCall .bm "Pcol" "Vcol" [some 10, some 9] [some 1, some 2]
          (some 10, 1, 1) none,
        .printParams .bm 1 2 3,
        .fitCall .vinet "Pcol" "Vcol" [some 10, some 9] [some 1, some 2]
          (some 10, 1, 1) none,
        .printLine (vinetErr "boom")], .exited) ∧
    (Event.fitCall .bm "P2" "V2" [some 8, some 7] [some 3, some 4] (some 8, 160, 5)
        (some 5000)
      ∈ (EosAdd.main secondFailOracle (some tTwo) "t" "out"
          ["Pcol", "P2"] ["Vcol", "V2"] []).1) ∧
    secondFailOracle .bm [some 8, some 7] [some 3, some 4] (some 8, 160, 5)
      (some 5000) = Except.error "boom" ∧
    ((∃ pre, (EosAdd.main secondFailOracle (some tTwo) "t" "out"
          ["Pcol", "P2"] ["Vcol", "V2"] []).1 =
        pre ++ [Event.fitCall .bm "P2" "V2" [some 8, some 7] [some 3, some 4]
            (some 8, 160, 5) (some 5000),
          Event.printLine (fitErrMsgMulti .bm "P2" "V2" "boom")] ∧
      (EosAdd.main secondFailOracle (some tTwo) "t" "out"
          ["Pcol", "P2"] ["Vcol", "V2"] []).2 = .exited) ∧
      strHasSub (fitErrMsgMulti .bm "P2" "V2" "boom") "P2" = true ∧
      strHasSub (fitErrMsgMulti .bm "P2" "V2" "boom") "V2" = true ∧
      strHasSub (fitErrMsgMulti .bm "P2" "V2" "boom") "boom" = true) := by
  refine ⟨by rfl, ?_, by rfl, ?_, by decide, by rfl, ?_⟩
  · exact C5_amended_fit_failure.1 failOracle (some tCols) "Pcol" "Vcol" "out"
      (tCols.filterCols ["Pcol", "Vcol"]) (some 10) [some 9] "boom"
      (by rfl) (by decide) (by decide) (by rfl)
  · exact C5_amended_fit_failure.2.1 vinetFailOracle (some tCols) "Pcol" "Vcol" "out"
      (tCols.filterCols ["Pcol", "Vcol"]) (some 10) [some 9] 1 2 3 "boom"
      (by rfl) (by decide) (by decide) (by rfl) (by rfl)
  · exact C5_amended_fit_failure.2.2 secondFailOracle (some tTwo) "t" "out"
      ["Pcol", "P2"] ["Vcol", "V2"] [] .bm "P2" "V2" [some 8, some 7] [some 3, some 4]
      (some 8, 160, 5) (some 5000) "boom" (by decide) (by rfl)

/-- C6: The Data Loader succeeds and returns a table containing exactly the
requested columns with the same row count as the source if and only if every
requested column name is present in the file; if any requested column is
absent, loading fails with a reported schema error and the process terminates
before any fitting. -/
theorem C6_data_loader (t : Table) (usecols : List String) (hrect : t.Rect)
    (hne : usecols ≠ []) :
    ((∀ c ∈ usecols, t.hasCol c = true) ↔
      ∃ t', read_excel (some t) usecols = Except.ok t' ∧
        (∀ c, t'.hasCol c = true ↔ c ∈ usecols) ∧ t'.nrows = t.nrows) ∧
    (∀ c₀ ∈ usecols, t.hasCol c₀ = false →
      ∀ (fit : FitOracle) (p v o : String), usecols = [p, v] →
        (Eos.main fit (some t) p v o).2 = .exited ∧
        Event.printLine (readErrMsg "Usecols do not match columns")
          ∈ (Eos.main fit (some t) p v o).1 ∧
        ∀ m pc vc V P p0 mf,
          Event.fitCall m pc vc V P p0 mf ∉ (Eos.main fit (some t) p v o).1) := by
  constructor
  · constructor
    · intro hall
      have hallb : (usecols.all fun c => t.hasCol c) = true := List.all_eq_true.2 hall
      refine ⟨t.filterCols usecols, ?_, ?_, ?_⟩
      · simp [read_excel, hallb]
      · intro c
        rw [Table.hasCol_filterCols]
        constructor
        · intro h
          rw [Bool.and_eq_true] at h
          exact List.mem_of_elem_eq_true h.2
        · intro hc
          have h1 := hall c hc
          have h2 : usecols.contains c = true := List.elem_eq_true_of_mem hc
          rw [h1, h2]
          rfl
      · have hex : ∃ c₀, c₀ ∈ usecols := by
          cases usecols with
          | nil => exact absurd rfl hne
          | cons a l => exact ⟨a, List.mem_cons_self a l⟩
        obtain ⟨c₀, hc0⟩ := hex
        exact Table.nrows_filterCols t usecols hrect
          (Table.filterCols_cols_ne_nil t usecols c₀ hc0 (hall c₀ hc0))
    · rintro ⟨t', hok, -, -⟩ c hc
      by_cases hallb : (usecols.all fun c => t.hasCol c) = true
      · exact List.all_eq_true.1 hallb c hc
      · simp [read_excel, hallb] at hok
  · intro c₀ hc0 hno fit p v o husecols
    subst husecols
    have hre : read_excel (some t) [p, v] =
        Except.error "Usecols do not match columns" := by
      have hallb : ([p, v].all fun c => t.hasCol c) = false := by
        simp at hc0
        rcases hc0 with rfl | rfl
        · simp [hno]
        · simp [hno]
      simp [read_excel, hallb]
    rw [Eos.main_readfail_eq fit (some t) p v o _ hre]
    refine ⟨rfl, ?_, ?_⟩
    · simp
    · intro m pc vc V P p0 mf hmem
      simp at hmem

/-- Witness for C6: a well-formed two-column load and a load with the volume
column missing. -/
theorem C6_data_loader_witness :
    tCols.Rect ∧ (["Pcol", "Vcol"] : List String) ≠ [] ∧
    (∀ c ∈ (["Pcol", "Vcol"] : List String), tCols.hasCol c = true) ∧
    (∃ t', read_excel (some tCols) ["Pcol", "Vcol"] = Except.ok t' ∧
      (∀ c, t'.hasCol c = true ↔ c ∈ (["Pcol", "Vcol"] : List String)) ∧
      t'.nrows = tCols.nrows) ∧
    tNoV.Rect ∧ tNoV.hasCol "Vcol" = false ∧
    (Eos.main failOracle (some tNoV) "Pcol" "Vcol" "out").2 = .exited ∧
    Event.printLine (readErrMsg "Usecols do not match columns")
      ∈ (Eos.main failOracle (some tNoV) "Pcol" "Vcol" "out").1 := by
  have hr1 : tCols.Rect := by
    intro x hx
    simp [tCols] at hx
    rcases hx with rfl | rfl <;> rfl
  have hr2 : tNoV.Rect := by
    intro x hx
    simp [tNoV] at hx
    subst hx
    rfl
  refine ⟨hr1, by decide, by decide, ?_, hr2, by decide, ?_, ?_⟩
  · exact (C6_data_loader tCols ["Pcol", "Vcol"] hr1 (by decide)).1.mp (by decide)
  · exact ((C6_data_loader tNoV ["Pcol", "Vcol"] hr2 (by decide)).2 "Vcol"
      (by decide) (by decide) failOracle "Pcol" "Vcol" "out" rfl).1
  · exact ((C6_data_loader tNoV ["Pcol", "Vcol"] hr2 (by decide)).2 "Vcol"
      (by decide) (by decide) failOracle "Pcol" "Vcol" "out" rfl).2.1
